import Mathlib

/-!
Verification of the DEO workflow-orchestration engine.

This file shallowly embeds the parts of the engine that the verified
properties talk about:

- the condition block (src/orchestra/blocks/condition_block.py),
- the await block and its duration parser (src/orchestra/blocks/await_block.py),
- suspension matching and resume (src/endpoints/endpoints.py, check_and_resume_awaits),
- the timeout sweeper (src/orchestra/blocks/timeout_checker.py),
- the scan poller (src/orchestra/blocks/scan.py, scan_checker.py),
- template validation and graph traversal (src/orchestra/orchestrate.py).

Python strings are modelled as Lean String restricted to the ASCII
behaviour of lower/strip/in/startswith/endswith (the engine only feeds
ASCII command words and ids through these helpers).  Python dict access
with defaults is modelled by Option.  Calls into the Python standard
library that the engine treats as black boxes (re.search, float parsing)
are parameters of the embedding, so every theorem below holds for any
behaviour of those calls.  Database collections are modelled as lists of
records, and the Slack gateway as explicit arguments.
-/

namespace DEO

/-! ## Python string primitives (ASCII model) -/

/-- Model of Python str.lower for the ASCII strings the engine uses. -/
def pyLower (s : String) : String := String.mk (s.toList.map Char.toLower)

/-- Model of Python str.strip: drop leading and trailing whitespace. -/
def pyStrip (s : String) : String :=
  String.mk (((s.toList.dropWhile Char.isWhitespace).reverse.dropWhile
    Char.isWhitespace).reverse)

/-- Boolean test that the first list is an initial segment of the second. -/
def listIsInit : List Char → List Char → Bool
  | [], _ => true
  | _ :: _, [] => false
  | a :: as, b :: bs => a = b && listIsInit as bs

/-- Boolean test that the first list occurs as a contiguous sublist of the second. -/
def listHasSub (needle hay : List Char) : Bool :=
  if listIsInit needle hay then true
  else
    match hay with
    | [] => false
    | _ :: t => listHasSub needle t

/-- Model of the Python substring test: needle in hay. -/
def pyIn (needle hay : String) : Bool := listHasSub needle.toList hay.toList

/-- Model of Python str.startswith. -/
def pyStartsWith (s pre : String) : Bool := listIsInit pre.toList s.toList

/-- Model of Python str.endswith. -/
def pyEndsWith (s suf : String) : Bool := listIsInit suf.toList.reverse s.toList.reverse

/-! ## Condition block (src/orchestra/blocks/condition_block.py)

The two stdlib calls appearing in evaluate_condition are abstracted:

- regexSearch pattern text models re.search(pattern, text, re.IGNORECASE);
  the value none models an invalid pattern (re.error), which the source
  catches and turns into False;
- parseNumber s models float(s): none models a ValueError, which the
  source catches and turns into False.  Parsed values are modelled as
  rationals; the theorems below only depend on the order of the parsed
  values, never on float rounding.
-/

/-- One entry of the conditions list of a condition block config. -/
structure ConditionRule where
  operator : String
  value : String
  output_side : String
deriving DecidableEq, Repr

/-- Config of a condition block: variable name, ordered rules, default output. -/
structure CondConfig where
  var : String
  conditions : List ConditionRule
  default_output : String
deriving DecidableEq, Repr

/-- Result dict of execute_condition. -/
structure ConditionResult where
  matched : Bool
  condition_index : Int
  output_side : String
  evaluated_value : String
  matched_operator : Option String
  matched_value : Option String
deriving DecidableEq, Repr

/-- Embedding of evaluate_condition (condition_block.py lines 100-174). -/
def evaluate_condition (regexSearch : String → String → Option Bool)
    (parseNumber : String → Option ℚ)
    (value operator expected : String) : Bool :=
  let value_lower := pyStrip (pyLower value)
  let expected_lower := pyStrip (pyLower expected)
  if operator = "equals" then value_lower = expected_lower
  else if operator = "not_equals" then value_lower ≠ expected_lower
  else if operator = "contains" then pyIn expected_lower value_lower
  else if operator = "not_contains" then !(pyIn expected_lower value_lower)
  else if operator = "starts_with" then pyStartsWith value_lower expected_lower
  else if operator = "ends_with" then pyEndsWith value_lower expected_lower
  else if operator = "regex" then (regexSearch expected value).getD false
  else if operator = "is_empty" then (pyStrip value).toList.length = 0
  else if operator = "is_not_empty" then (pyStrip value).toList.length > 0
  else if operator = "greater_than" then
    match parseNumber value, parseNumber expected with
    | some a, some b => a > b
    | _, _ => false
  else if operator = "less_than" then
    match parseNumber value, parseNumber expected with
    | some a, some b => a < b
    | _, _ => false
  else false

/-- Value of the checked context variable: context.get(variable, "") followed
by the None guard and str coercion of execute_condition lines 59-65 (only
string-valued context entries are modelled). -/
def condValue (context : List (String × Option String)) (var : String) : String :=
  match context.find? (fun p => p.1 = var) with
  | none => ""
  | some (_, none) => ""
  | some (_, some s) => s

/-- First rule of the list that matches, with its index (the for loop of
execute_condition lines 70-88). -/
def condFirstMatch (regexSearch : String → String → Option Bool)
    (parseNumber : String → Option ℚ) (v : String) :
    List ConditionRule → Nat → Option (Nat × ConditionRule)
  | [], _ => none
  | c :: rest, i =>
    if evaluate_condition regexSearch parseNumber v c.operator c.value then some (i, c)
    else condFirstMatch regexSearch parseNumber v rest (i + 1)

/-- Embedding of execute_condition (condition_block.py lines 54-97). -/
def execute_condition (regexSearch : String → String → Option Bool)
    (parseNumber : String → Option ℚ)
    (config : CondConfig) (context : List (String × Option String)) : ConditionResult :=
  match condFirstMatch regexSearch parseNumber (condValue context config.var)
      config.conditions 0 with
  | some (i, c) =>
    { matched := true, condition_index := Int.ofNat i, output_side := c.output_side,
      evaluated_value := condValue context config.var,
      matched_operator := some c.operator, matched_value := some c.value }
  | none =>
    { matched := false, condition_index := -1, output_side := config.default_output,
      evaluated_value := condValue context config.var,
      matched_operator := none, matched_value := none }

/-- Operators understood by evaluate_condition. -/
def supportedOperators : List String :=
  ["equals", "not_equals", "contains", "not_contains", "starts_with",
   "ends_with", "regex", "is_empty", "is_not_empty", "greater_than", "less_than"]

/-! ## Await duration parser (src/orchestra/blocks/await_block.py lines 62-92) -/

/-- Seconds per duration unit; none models a character that the unit branch
of parse_timeout does not map (unreachable after a successful pattern match). -/
def unitSeconds (u : Char) : Option Nat :=
  if u = 's' then some 1
  else if u = 'm' then some 60
  else if u = 'h' then some 3600
  else if u = 'd' then some 86400
  else none

/-- Numeric value of a digit string, as int() computes it on ASCII digits. -/
def digitsToNat (cs : List Char) : Nat := cs.foldl (fun a c => 10 * a + (c.toNat - 48)) 0

/-- Body of parse_timeout on the character list of the lowercased input:
the re.match of (digits)(unit) followed by the unit table. -/
def parseTimeoutList (cs : List Char) : Option Nat :=
  match cs.getLast? with
  | none => none
  | some u =>
    if !cs.dropLast.isEmpty && cs.dropLast.all Char.isDigit then
      (unitSeconds u).map (fun k => digitsToNat cs.dropLast * k)
    else none

/-- Embedding of parse_timeout: re.match of (digits)(unit) against the
lowercased input, then the unit table; none models the ValueError raise.
The result is the duration in seconds. -/
def parse_timeout (timeout_str : String) : Option Nat :=
  parseTimeoutList (pyLower timeout_str).toList

/-- Pattern of the claim on a character list: digits then one of s, m, h, d. -/
def timeoutPatternList (cs : List Char) : Bool :=
  match cs.getLast? with
  | none => false
  | some u =>
    !cs.dropLast.isEmpty && cs.dropLast.all Char.isDigit &&
      (u = 's' || u = 'm' || u = 'h' || u = 'd')

/-- Specification-side pattern of the claim: the input itself (not its
lowercasing) matches digits followed by one of s, m, h, d. -/
def timeoutPatternMatches (s : String) : Bool :=
  timeoutPatternList s.toList

/-- Regex behaviour used to instantiate theorems on concrete inputs whose
operators never reach the regex branch. -/
def noRegex : String → String → Option Bool := fun _ _ => none

/-- Number-parse behaviour used to instantiate theorems on concrete inputs
whose operators never reach the numeric branches. -/
def noNumber : String → Option ℚ := fun _ => none

/-- The two-rule condition config of the testable property in the spec:
equals yes to A, equals no to B, default D. -/
def yesNoConfig : CondConfig :=
  { var := "last_response",
    conditions := [{ operator := "equals", value := "yes", output_side := "A" },
                   { operator := "equals", value := "no", output_side := "B" }],
    default_output := "D" }

/-! ## Suspended runs (documents of the pending_executions collection)

A SuspendedRun models the pending-execution document built by execute_await
(await_block.py lines 168-200): ids are modelled as Nat (Mongo object ids),
instants as Int (UTC timestamps), and the continuation fields
(remaining_blocks, action_chain) are not needed by the claims — the resumed
re-execution is a parameter rerun of the store operations, returning ok or
the raised error message.  A falsy failure_message or bot_token is modelled
as none and the empty string respectively.
-/

/-- One entry of the responses_received log. -/
structure ResponseRecord where
  user_id : String
  channel_id : String
  message : String
deriving DecidableEq, Repr

/-- A pending/completed execution document. -/
structure SuspendedRun where
  id : Nat
  template_id : String
  workspace_id : String
  status : String
  expected_response : String
  expected_responses : List String
  match_type : String
  case_sensitive : Bool
  mode : String
  channel_name : Option String
  monitored_channels : List String
  monitored_users : List String
  users_responded : List String
  bot_token : String
  timeout_at : Int
  failure_message : Option String
  responses_received : List ResponseRecord
  error : Option String
deriving DecidableEq, Repr

/-- The two document stores an await run moves between: pending_executions
(active) and completed_executions (terminal).  The timeout sweeper uses a
separate terminal store, failed_executions, modelled alongside. -/
structure Stores where
  pending : List SuspendedRun
  completed : List SuspendedRun
deriving DecidableEq, Repr

/-- Embedding of check_response_match (await_block.py lines 239-278).
regexSearch pattern text models re.search(pattern, text) on the patterns the
engine stores (an invalid stored pattern would raise in the source; no claim
exercises the regex match type). -/
def check_response_match (regexSearch : String → String → Bool)
    (user_message expected_response : String) (match_type : String)
    (case_sensitive : Bool) (expected_responses : Option (List String)) : Bool :=
  let msg := if case_sensitive then user_message else pyLower user_message
  let responses_to_check : List String :=
    match expected_responses with
    | some (r :: rest) => r :: rest
    | _ => [expected_response]
  responses_to_check.any (fun r =>
    if r = "" then false
    else
      if match_type = "exact" then
        pyStrip msg = pyStrip (if case_sensitive then r else pyLower r)
      else if match_type = "contains" then
        pyIn (if case_sensitive then r else pyLower r) msg
      else if match_type = "regex" then
        regexSearch (if case_sensitive then r else pyLower r) msg
      else false)

/-- The expected_responses argument passed by check_and_resume_awaits
(endpoints.py line 329): the stored list when non-empty, otherwise None. -/
def expectedRespOpt (ex : SuspendedRun) : Option (List String) :=
  match ex.expected_responses with
  | [] => none
  | r :: rest => some (r :: rest)

/-- The responded set after this event, as lines 336-339 of endpoints.py
compute it: append the participant unless already present. -/
def respondedAfter (ex : SuspendedRun) (user_id : String) : List String :=
  if ex.users_responded.contains user_id then ex.users_responded
  else ex.users_responded ++ [user_id]

/-- The document after the update_one of endpoints.py lines 342-355: the
responded set and the responses log grow unless the participant already
responded. -/
def updatedRun (ex : SuspendedRun) (user_id channel_id message_text : String) :
    SuspendedRun :=
  if ex.users_responded.contains user_id then ex
  else
    { ex with
      users_responded := ex.users_responded ++ [user_id],
      responses_received := ex.responses_received ++
        [{ user_id := user_id, channel_id := channel_id, message := message_text }] }

/-- Boolean form of the resume test of endpoints.py lines 371 and 387:
set(users_responded) is a superset of set(monitored_users). -/
def coversMonitored (responded monitored : List String) : Bool :=
  monitored.all (fun u => responded.contains u)

/-- Outcome of processing one pending execution against one inbound event. -/
inductive EventOutcome where
  | skipped
  | updated (run : SuspendedRun)
  | resumed (run : SuspendedRun)
deriving DecidableEq, Repr

/-- Per-execution body of the loop of check_and_resume_awaits (endpoints.py
lines 306-396): match the text, add the responder, decide whether to resume.
skipped models the no-match branch, updated a match that keeps waiting,
resumed a match after which lines 397-494 run. -/
def process_execution (regexSearch : String → String → Bool)
    (user_id channel_id message_text : String) (ex : SuspendedRun) : EventOutcome :=
  if check_response_match regexSearch message_text ex.expected_response
      ex.match_type ex.case_sensitive (expectedRespOpt ex) then
    if (if ex.mode = "users" then
          coversMonitored (updatedRun ex user_id channel_id message_text).users_responded
            ex.monitored_users
        else if ex.mode = "channel" then
          coversMonitored (updatedRun ex user_id channel_id message_text).users_responded
            ex.monitored_users
        else false) then
      EventOutcome.resumed (updatedRun ex user_id channel_id message_text)
    else EventOutcome.updated (updatedRun ex user_id channel_id message_text)
  else EventOutcome.skipped

/-- Replacement of a document in the active store by id (the effect of
update_one on the list model). -/
def applyUpdate (pending : List SuspendedRun) (r : SuspendedRun) :
    List SuspendedRun :=
  pending.map (fun x => if x.id = r.id then r else x)

/-- The document as the resume tail of check_and_resume_awaits leaves it
(endpoints.py lines 397-494): status completed, unless re-executing the
remaining graph through rerun raises, in which case status failed plus the
error message. -/
def finalRecord (rerun : SuspendedRun → Except String Unit)
    (run : SuspendedRun) : SuspendedRun :=
  match rerun { run with status := "completed" } with
  | Except.ok _ => { run with status := "completed" }
  | Except.error e => { run with status := "failed", error := some e }

/-- Embedding of the resume tail of check_and_resume_awaits (endpoints.py
lines 397-494): set status completed, re-execute the remaining graph via
rerun, on an exception set status failed with the error message, then insert
into completed_executions and delete from pending_executions. -/
def finalizeResume (rerun : SuspendedRun → Except String Unit) (st : Stores)
    (run : SuspendedRun) : Stores :=
  { pending := st.pending.filter (fun x => x.id ≠ run.id),
    completed := st.completed ++ [finalRecord rerun run] }

/-- The for loop of check_and_resume_awaits over the matching pending
executions; a resume finalizes and breaks. -/
def resumeLoop (regexSearch : String → String → Bool)
    (rerun : SuspendedRun → Except String Unit)
    (user_id channel_id message_text : String) :
    List SuspendedRun → Stores → Stores
  | [], st => st
  | ex :: rest, st =>
    match process_execution regexSearch user_id channel_id message_text ex with
    | EventOutcome.skipped =>
      resumeLoop regexSearch rerun user_id channel_id message_text rest st
    | EventOutcome.updated ex2 =>
      resumeLoop regexSearch rerun user_id channel_id message_text rest
        { st with pending := applyUpdate st.pending ex2 }
    | EventOutcome.resumed ex2 =>
      finalizeResume rerun { st with pending := applyUpdate st.pending ex2 } ex2

/-- Embedding of check_and_resume_awaits (endpoints.py lines 280-498): the
find selects the pending executions with status awaiting_response whose
monitored channels contain the event channel and monitored users contain the
event participant; each is processed in order. -/
def check_and_resume_awaits (regexSearch : String → String → Bool)
    (rerun : SuspendedRun → Except String Unit)
    (user_id channel_id message_text : String) (st : Stores) : Stores :=
  resumeLoop regexSearch rerun user_id channel_id message_text
    (st.pending.filter (fun e =>
      e.status == "awaiting_response" &&
      e.monitored_channels.contains channel_id &&
      e.monitored_users.contains user_id))
    st

/-- Regex behaviour for concrete instantiations of the resume theorems. -/
def noRegexBool : String → String → Bool := fun _ _ => false

/-- A concrete suspended run used to instantiate the store theorems: two
monitored users with their two direct channels, nobody responded yet. -/
def sampleRun : SuspendedRun :=
  { id := 1, template_id := "t", workspace_id := "w",
    status := "awaiting_response", expected_response := "yes",
    expected_responses := ["yes"], match_type := "contains",
    case_sensitive := false, mode := "users", channel_name := none,
    monitored_channels := ["C1", "C2"], monitored_users := ["U1", "U2"],
    users_responded := [], bot_token := "tok", timeout_at := 100,
    failure_message := some "nobody answered", responses_received := [],
    error := none }

/-- Resumed re-execution that succeeds, for concrete instantiations. -/
def rerunOk : SuspendedRun → Except String Unit := fun _ => Except.ok ()

/-! ## Orchestrator graph model and traversal (src/orchestra/orchestrate.py)

The graph built by _build_graph is modelled as association lists:
nodes models node_to_block restricted to the "type" entry (none models a
node whose type key is None), conns models connections_from.  Executing one
block (_execute_block) is abstracted as a total function runBlock from node
id to BlockResult: halt models the None return of an await or scan block
(the pass stops), value models any result dict, carrying the output_side
that a condition result would provide.  The while loop of _execute_graph is
embedded with explicit fuel; the termination theorem shows that the fuel
computed from the graph is never exhausted, so the sentinel none models
nothing in the source.
-/

/-- Result of executing one block, as the traversal consumes it. -/
inductive BlockResult where
  | halt
  | value (output_side : String)
deriving DecidableEq, Repr

/-- The graph structures built by _build_graph (orchestrate.py lines 83-145). -/
structure GraphEnv where
  nodes : List (String × Option String)
  conns : List ((String × String) × String)
deriving DecidableEq, Repr

/-- Lookup of node_to_block followed by .get("type"): none models both an id
absent from node_to_block and a node whose type is None. -/
def nodeTypeOf (env : GraphEnv) (id : String) : Option String :=
  match env.nodes.find? (fun p => p.1 = id) with
  | none => none
  | some (_, t) => t

/-- Embedding of _get_next_node (orchestrate.py lines 147-158). -/
def getNextNode (env : GraphEnv) (id side : String) : Option String :=
  match env.conns.find? (fun p => p.1.1 = id && p.1.2 = side) with
  | none => none
  | some p => some p.2

/-- The while loop of _execute_graph (orchestrate.py lines 255-304), with
explicit fuel.  The returned list is the sequence of executed node ids (the
results list); none is the fuel sentinel, shown unreachable below. -/
def execGraphLoop (env : GraphEnv) (runBlock : String → BlockResult) :
    Nat → List String → List String → Option String → Option (List String)
  | 0, _, _, _ => none
  | _ + 1, _, trace, none => some trace.reverse
  | fuel + 1, visited, trace, some c =>
    if visited.contains c then some trace.reverse
    else
      match nodeTypeOf env c with
      | none =>
        execGraphLoop env runBlock fuel (c :: visited) trace
          (getNextNode env c "bottom")
      | some t =>
        if t = "" then
          execGraphLoop env runBlock fuel (c :: visited) trace
            (getNextNode env c "bottom")
        else
          match runBlock c with
          | BlockResult.halt => some trace.reverse
          | BlockResult.value side =>
            execGraphLoop env runBlock fuel (c :: visited) (c :: trace)
              (getNextNode env c (if t = "condition" then side else "bottom"))

/-- Every node the traversal can reach from the start node: the start node
itself plus every connection target. -/
def nodeUniverse (env : GraphEnv) (start : String) : List String :=
  start :: env.conns.map (fun p => p.2)

/-- Embedding of _execute_graph (orchestrate.py lines 243-304): start from
the given node or from the connection leaving the trigger, with fuel one
more than the size of the reachable universe. -/
def execute_graph (env : GraphEnv) (runBlock : String → BlockResult)
    (start_from_node : Option String) : Option (List String) :=
  match start_from_node with
  | some s =>
    execGraphLoop env runBlock ((nodeUniverse env s).length + 1) [] [] (some s)
  | none =>
    match getNextNode env "trigger-node" "bottom" with
    | none => some []
    | some s =>
      execGraphLoop env runBlock ((nodeUniverse env s).length + 1) [] [] (some s)

/-! ## Template validation (src/orchestra/orchestrate.py lines 164-206)

A BlockEntry models one element of the blocks list: typed for a dict with a
type key (new format), named for a plain string (old format).  The source
raises ValueError on validation failures; a mixed-format list makes the
source raise AttributeError (str has no attribute get) or TypeError
(unhashable dict in the membership test), modelled as pyError.
-/

/-- One element of the blocks list of an action chain. -/
inductive BlockEntry where
  | typed (ty : String)
  | named (nm : String)
deriving DecidableEq, Repr

/-- Errors validate_template can raise: validation models ValueError,
pyError the AttributeError/TypeError of a mixed-format list. -/
inductive TemplateError where
  | validation (msg : String)
  | pyError
deriving DecidableEq, Repr

/-- Keys of BLOCK_EXECUTORS (orchestrate.py lines 31-38). -/
def supportedBlocks : List String :=
  ["trigger", "message", "scan", "await", "response", "condition"]

/-- The new-format loop of validate_template (orchestrate.py lines 185-191). -/
def validateNewFormat : List BlockEntry → Except TemplateError Unit
  | [] => Except.ok ()
  | BlockEntry.typed ty :: rest =>
    if supportedBlocks.contains ty then validateNewFormat rest
    else Except.error (TemplateError.validation "block type is not supported")
  | BlockEntry.named _ :: _ => Except.error TemplateError.pyError

/-- The old-format loop of validate_template (orchestrate.py lines 193-206):
first the membership test against the action-chain keys, then the supported
kind test. -/
def validateOldFormat (chainKeys : List String) :
    List BlockEntry → Except TemplateError Unit
  | [] => Except.ok ()
  | BlockEntry.named nm :: rest =>
    if chainKeys.contains nm then
      if supportedBlocks.contains nm then validateOldFormat chainKeys rest
      else Except.error
        (TemplateError.validation "block is not a supported block type")
    else Except.error
      (TemplateError.validation "block is listed but not present in the payload")
  | BlockEntry.typed _ :: _ => Except.error TemplateError.pyError

/-- Embedding of validate_template (orchestrate.py lines 164-206): empty
list check, format detection on the first element, then the per-format loop.
TemplateOrchestrator.__init__ calls this before any block executes and
before anything is persisted, and propagates its error. -/
def validate_template (blocks : List BlockEntry) (chainKeys : List String) :
    Except TemplateError Unit :=
  match blocks with
  | [] => Except.error (TemplateError.validation "blocks list is empty or missing")
  | BlockEntry.typed ty :: rest => validateNewFormat (BlockEntry.typed ty :: rest)
  | BlockEntry.named nm :: rest =>
    validateOldFormat chainKeys (BlockEntry.named nm :: rest)

/-- Specification-side record of exactly the checks the claim lists: blocks
non-empty, every new-format type supported, every legacy name having a
config entry. -/
def claimChecksPass (blocks : List BlockEntry) (chainKeys : List String) : Bool :=
  !blocks.isEmpty &&
  (match blocks with
   | BlockEntry.typed _ :: _ =>
     blocks.all (fun b => match b with
       | BlockEntry.typed t => supportedBlocks.contains t
       | BlockEntry.named _ => true)
   | _ =>
     blocks.all (fun b => match b with
       | BlockEntry.named n => chainKeys.contains n
       | BlockEntry.typed _ => true))

/-- Specification-side characterization of the definitions validate_template
accepts: non-empty, format-homogeneous, every type supported, and legacy
names both configured and supported. -/
def validSpec (blocks : List BlockEntry) (chainKeys : List String) : Bool :=
  match blocks with
  | [] => false
  | BlockEntry.typed _ :: _ =>
    blocks.all (fun b => match b with
      | BlockEntry.typed t => supportedBlocks.contains t
      | BlockEntry.named _ => false)
  | BlockEntry.named _ :: _ =>
    blocks.all (fun b => match b with
      | BlockEntry.named n => chainKeys.contains n && supportedBlocks.contains n
      | BlockEntry.typed _ => false)

/-- A one-node graph used to instantiate the traversal theorem: the trigger
connects to a single message node. -/
def sampleGraph : GraphEnv :=
  { nodes := [("n1", some "message")],
    conns := [(("trigger-node", "bottom"), "n1")] }

/-- Block behaviour for the sample graph: every block returns a result. -/
def sampleRunBlock : String → BlockResult := fun _ => BlockResult.value "bottom"

/-! ## Timeout sweeper (src/orchestra/blocks/timeout_checker.py) -/

/-- The set difference set(monitored_users) - set(users_responded) of
check_timeouts line 71, determinized to first-occurrence order (CPython
iterates a set in unspecified order; the theorems below are insensitive to
the enumeration order chosen). -/
def usersNotResponded (monitored responded : List String) : List String :=
  (monitored.filter (fun u => !(responded.contains u))).eraseDups

/-- The channels to which check_timeouts sends the configured failure
message of one timed-out run (timeout_checker.py lines 63-79): the first
monitored channel in channel mode; in users mode the channel at position i
of monitored_channels for the i-th enumerated non-responder, skipped when
the index is out of range. -/
def timeout_failure_channels (ex : SuspendedRun) : List String :=
  match ex.failure_message with
  | none => []
  | some _ =>
    if ex.bot_token = "" then []
    else if ex.mode = "channel" then
      match ex.monitored_channels with
      | [] => []
      | c :: _ => [c]
    else
      ((usersNotResponded ex.monitored_users ex.users_responded).enum).filterMap
        (fun p => ex.monitored_channels.get? p.1)

/-- Specification-side: the direct channel belonging to a monitored user,
positionally — execute_message builds monitored_users and the DM channel
list in the same order, so user i owns channel i. -/
def channelOfUser (ex : SuspendedRun) (u : String) : Option String :=
  (ex.monitored_users.findIdx? (fun x => x == u)).bind
    (fun i => ex.monitored_channels.get? i)

/-- The timed-out run of the failing input: U1 responded, U2 did not. -/
def timeoutRun : SuspendedRun := { sampleRun with users_responded := ["U1"] }

/-! ## Scan poller (src/orchestra/blocks/scan.py, scan_checker.py)

Slack timestamps are modelled as rationals (the source compares them through
float()); the stored cursor last_message_ts is an Option, none modelling the
initial None/empty cursor.
-/

/-- One fetched channel message. -/
structure ScanMsg where
  ts : ℚ
  text : String
deriving DecidableEq, Repr

/-- Return dict of check_channel_for_command: found flag, the latest_ts to
be written back as the cursor, and the matched message timestamp. -/
structure ScanFindResult where
  found : Bool
  latest_ts : Option ℚ
  found_ts : Option ℚ
deriving DecidableEq, Repr

/-- The cursor update of scan.py lines 236-238: keep the larger timestamp,
adopt the first one seen when the cursor is empty. -/
def advCursor (latest : Option ℚ) (t : ℚ) : Option ℚ :=
  match latest with
  | none => some t
  | some l => if t > l then some t else some l

/-- The message loop of check_channel_for_command (scan.py lines 229-250):
messages in fetched order, cursor advanced per message, early return on the
first message containing the command. -/
def scanMessages (command : String) : List ScanMsg → Option ℚ → ScanFindResult
  | [], latest => { found := false, latest_ts := latest, found_ts := none }
  | msg :: rest, latest =>
    if pyIn (pyLower command) (pyLower msg.text) then
      { found := true, latest_ts := advCursor latest msg.ts,
        found_ts := some msg.ts }
    else scanMessages command rest (advCursor latest msg.ts)

/-- Embedding of check_channel_for_command (scan.py lines 189-250): fetchOk
false models a not-ok Slack history response, which returns the stored
cursor unchanged; otherwise the fetched messages are scanned in order. -/
def check_channel_for_command (fetchOk : Bool) (messages : List ScanMsg)
    (command : String) (last_message_ts : Option ℚ) : ScanFindResult :=
  if fetchOk then scanMessages command messages last_message_ts
  else { found := false, latest_ts := last_message_ts, found_ts := none }

/-- The cursor check_scans writes back (scan_checker.py lines 99-127): the
latest_ts of the fetch result, in the found and the not-found branch alike;
the per-run exception path leaves the stored cursor untouched, which the
fetchOk-false case of the embedding covers. -/
def scan_cursor_after (fetchOk : Bool) (messages : List ScanMsg)
    (command : String) (c : Option ℚ) : Option ℚ :=
  (check_channel_for_command fetchOk messages command c).latest_ts

/-- Specification-side cursor of the claim: the maximum timestamp among the
stored cursor and all fetched messages. -/
def maxTs (c : Option ℚ) (messages : List ScanMsg) : Option ℚ :=
  messages.foldl
    (fun acc msg =>
      match acc with
      | none => some msg.ts
      | some x => some (max x msg.ts))
    c

/-! ## Lemmas about the condition block -/

theorem condFirstMatch_none_iff (rs : String → String → Option Bool)
    (pn : String → Option ℚ) (v : String) (l : List ConditionRule) (i : Nat) :
    condFirstMatch rs pn v l i = none ↔
      ∀ c ∈ l, evaluate_condition rs pn v c.operator c.value = false := by
  induction l generalizing i with
  | nil => simp [condFirstMatch]
  | cons c rest ih =>
    cases h : evaluate_condition rs pn v c.operator c.value with
    | true => simp [condFirstMatch, h]
    | false => simp [condFirstMatch, h, ih]

theorem condFirstMatch_first (rs : String → String → Option Bool)
    (pn : String → Option ℚ) (v : String) :
    ∀ (l : List ConditionRule) (i j : Nat) (hj : j < l.length),
      evaluate_condition rs pn v (l.get ⟨j, hj⟩).operator (l.get ⟨j, hj⟩).value = true →
      (∀ k (hk : k < l.length), k < j →
        evaluate_condition rs pn v (l.get ⟨k, hk⟩).operator (l.get ⟨k, hk⟩).value = false) →
      condFirstMatch rs pn v l i = some (i + j, l.get ⟨j, hj⟩) := by
  intro l
  induction l with
  | nil => intro i j hj; exact absurd hj (Nat.not_lt_zero j)
  | cons c rest ih =>
    intro i j hj hm hb
    cases j with
    | zero =>
      simp only [List.get] at hm ⊢
      simp [condFirstMatch, hm]
    | succ j0 =>
      have hc : evaluate_condition rs pn v c.operator c.value = false := by
        have := hb 0 (Nat.succ_pos _) (Nat.succ_pos _)
        simpa using this
      have hrec := ih (i + 1) j0 (Nat.lt_of_succ_lt_succ hj)
        (by simpa using hm)
        (by
          intro k hk hkj
          have := hb (k + 1) (Nat.succ_lt_succ hk) (Nat.succ_lt_succ hkj)
          simpa using this)
      simp only [condFirstMatch, hc, Bool.false_eq_true, if_false]
      rw [hrec]
      simp only [Option.some.injEq, Prod.mk.injEq]
      exact ⟨by omega, rfl⟩

theorem execute_condition_eq_default (rs : String → String → Option Bool)
    (pn : String → Option ℚ) (cfg : CondConfig) (ctx : List (String × Option String))
    (h : ∀ c ∈ cfg.conditions,
      evaluate_condition rs pn (condValue ctx cfg.var) c.operator c.value = false) :
    execute_condition rs pn cfg ctx =
      { matched := false, condition_index := -1, output_side := cfg.default_output,
        evaluated_value := condValue ctx cfg.var, matched_operator := none,
        matched_value := none } := by
  unfold execute_condition
  rw [(condFirstMatch_none_iff rs pn _ _ 0).mpr h]

theorem execute_condition_eq_match (rs : String → String → Option Bool)
    (pn : String → Option ℚ) (cfg : CondConfig) (ctx : List (String × Option String))
    (j : Nat) (hj : j < cfg.conditions.length)
    (hm : evaluate_condition rs pn (condValue ctx cfg.var)
      (cfg.conditions.get ⟨j, hj⟩).operator (cfg.conditions.get ⟨j, hj⟩).value = true)
    (hb : ∀ k (hk : k < cfg.conditions.length), k < j →
      evaluate_condition rs pn (condValue ctx cfg.var)
        (cfg.conditions.get ⟨k, hk⟩).operator (cfg.conditions.get ⟨k, hk⟩).value = false) :
    execute_condition rs pn cfg ctx =
      { matched := true, condition_index := Int.ofNat j,
        output_side := (cfg.conditions.get ⟨j, hj⟩).output_side,
        evaluated_value := condValue ctx cfg.var,
        matched_operator := some (cfg.conditions.get ⟨j, hj⟩).operator,
        matched_value := some (cfg.conditions.get ⟨j, hj⟩).value } := by
  unfold execute_condition
  rw [condFirstMatch_first rs pn _ _ 0 j hj hm hb]
  simp

/-! ## Claim theorems about the condition block -/

/-- C4: condition evaluation returns the branch label of the first rule, in
definition order, whose operator-value test matches the evaluated context
variable, and returns the configured default branch when no rule matches;
for last_response yes with rules equals-yes-to-A, equals-no-to-B it selects A,
and for last_response maybe it selects the default branch. -/
theorem condition_first_match_wins (rs : String → String → Option Bool)
    (pn : String → Option ℚ) (cfg : CondConfig) (ctx : List (String × Option String)) :
    (∀ j (hj : j < cfg.conditions.length),
      evaluate_condition rs pn (condValue ctx cfg.var)
          (cfg.conditions.get ⟨j, hj⟩).operator (cfg.conditions.get ⟨j, hj⟩).value = true →
      (∀ k (hk : k < cfg.conditions.length), k < j →
        evaluate_condition rs pn (condValue ctx cfg.var)
          (cfg.conditions.get ⟨k, hk⟩).operator (cfg.conditions.get ⟨k, hk⟩).value = false) →
      (execute_condition rs pn cfg ctx).output_side =
          (cfg.conditions.get ⟨j, hj⟩).output_side ∧
        (execute_condition rs pn cfg ctx).matched = true ∧
        (execute_condition rs pn cfg ctx).condition_index = Int.ofNat j) ∧
    ((∀ c ∈ cfg.conditions,
        evaluate_condition rs pn (condValue ctx cfg.var) c.operator c.value = false) →
      (execute_condition rs pn cfg ctx).output_side = cfg.default_output ∧
        (execute_condition rs pn cfg ctx).matched = false) ∧
    (execute_condition noRegex noNumber yesNoConfig
      [("last_response", some "yes")]).output_side = "A" ∧
    (execute_condition noRegex noNumber yesNoConfig
      [("last_response", some "maybe")]).output_side = "D" := by
  refine ⟨?_, ?_, by decide, by decide⟩
  · intro j hj hm hb
    rw [execute_condition_eq_match rs pn cfg ctx j hj hm hb]
    exact ⟨rfl, rfl, rfl⟩
  · intro h
    rw [execute_condition_eq_default rs pn cfg ctx h]
    exact ⟨rfl, rfl⟩

/-- C4 witness: the first rule equals-yes matches the value yes at index 0,
so the result follows the A branch. -/
theorem condition_first_match_wins_witness :
    (execute_condition noRegex noNumber yesNoConfig
        [("last_response", some "yes")]).output_side = "A" ∧
      (execute_condition noRegex noNumber yesNoConfig
        [("last_response", some "yes")]).matched = true :=
  have h := (condition_first_match_wins noRegex noNumber yesNoConfig
    [("last_response", some "yes")]).1 0 (by decide) (by decide)
    (fun k _ hk => absurd hk (Nat.not_lt_zero k))
  ⟨h.1.trans (by decide), h.2.1⟩

/-- C9: the numeric operators greater_than and less_than never raise: when
either side fails to parse as a number the rule does not match, and when both
parse the result is the numeric comparison. -/
theorem numeric_operators_fail_closed (rs : String → String → Option Bool)
    (pn : String → Option ℚ) (v e : String) :
    ((pn v = none ∨ pn e = none) →
      evaluate_condition rs pn v "greater_than" e = false ∧
        evaluate_condition rs pn v "less_than" e = false) ∧
    (∀ a b : ℚ, pn v = some a → pn e = some b →
      evaluate_condition rs pn v "greater_than" e = decide (a > b) ∧
        evaluate_condition rs pn v "less_than" e = decide (a < b)) := by
  have hg : evaluate_condition rs pn v "greater_than" e =
      (match pn v, pn e with
       | some a, some b => decide (a > b)
       | _, _ => false) := by
    rfl
  have hl : evaluate_condition rs pn v "less_than" e =
      (match pn v, pn e with
       | some a, some b => decide (a < b)
       | _, _ => false) := by
    rfl
  constructor
  · intro h
    rcases h with h | h <;> rw [hg, hl, h] <;>
      cases pn e <;> cases pn v <;> simp
  · intro a b ha hb
    rw [hg, hl, ha, hb]
    exact ⟨rfl, rfl⟩

/-- C9 witness: with a parse behaviour that accepts only the string 5, the
value abc fails to parse and greater_than does not match, while 7 and 5 both
parsing compare numerically. -/
theorem numeric_operators_fail_closed_witness :
    evaluate_condition noRegex noNumber "abc" "greater_than" "5" = false ∧
      evaluate_condition noRegex (fun s => if s = "7" then some 7 else some 5)
        "7" "greater_than" "5" = decide ((7 : ℚ) > 5) :=
  ⟨((numeric_operators_fail_closed noRegex noNumber "abc" "5").1
      (Or.inl rfl)).1,
    (((numeric_operators_fail_closed noRegex
        (fun s => if s = "7" then some 7 else some 5) "7" "5").2 7 5
      (by decide) (by decide)).1)⟩

/-- C10: an operator string outside the supported set never matches: the
evaluation returns false instead of raising, and a condition block whose
rules all carry unknown operators falls through to the default branch. -/
theorem unknown_operator_never_matches (rs : String → String → Option Bool)
    (pn : String → Option ℚ) :
    (∀ v op e, op ∉ supportedOperators →
      evaluate_condition rs pn v op e = false) ∧
    (∀ cfg ctx, (∀ c ∈ cfg.conditions, c.operator ∉ supportedOperators) →
      (execute_condition rs pn cfg ctx).output_side = cfg.default_output ∧
        (execute_condition rs pn cfg ctx).matched = false) := by
  have main : ∀ v op e, op ∉ supportedOperators →
      evaluate_condition rs pn v op e = false := by
    intro v op e h
    simp only [supportedOperators, List.mem_cons, List.not_mem_nil, or_false,
      not_or] at h
    obtain ⟨h1, h2, h3, h4, h5, h6, h7, h8, h9, h10, h11⟩ := h
    unfold evaluate_condition
    rw [if_neg h1, if_neg h2, if_neg h3, if_neg h4, if_neg h5, if_neg h6,
      if_neg h7, if_neg h8, if_neg h9, if_neg h10, if_neg h11]
  refine ⟨main, ?_⟩
  intro cfg ctx h
  rw [execute_condition_eq_default rs pn cfg ctx
    (fun c hc => main _ _ _ (h c hc))]
  exact ⟨rfl, rfl⟩

/-- C10 witness: the operator frobnicate is unknown, so it never matches and
a config using only that operator selects the default branch. -/
theorem unknown_operator_never_matches_witness :
    evaluate_condition noRegex noNumber "yes" "frobnicate" "yes" = false ∧
      (execute_condition noRegex noNumber
        { var := "last_response",
          conditions := [{ operator := "frobnicate", value := "yes",
                           output_side := "A" }],
          default_output := "D" }
        [("last_response", some "yes")]).output_side = "D" :=
  ⟨(unknown_operator_never_matches noRegex noNumber).1 "yes" "frobnicate" "yes"
      (by decide),
    ((unknown_operator_never_matches noRegex noNumber).2
      { var := "last_response",
        conditions := [{ operator := "frobnicate", value := "yes",
                         output_side := "A" }],
        default_output := "D" }
      [("last_response", some "yes")]
      (by intro c hc; simp at hc; rw [hc]; decide)).1⟩

/-! ## Claim theorems about the await duration parser -/

theorem unitSeconds_isSome (u : Char) :
    (unitSeconds u).isSome = (u = 's' || u = 'm' || u = 'h' || u = 'd') := by
  unfold unitSeconds
  split_ifs <;> simp_all

theorem getLast?_decomp : ∀ {l : List Char} {u : Char},
    l.getLast? = some u → l = l.dropLast ++ [u] := by
  intro l
  induction l with
  | nil => intro u h; simp [List.getLast?] at h
  | cons a t ih =>
    intro u h
    cases t with
    | nil => simp_all [List.getLast?]
    | cons b t2 =>
      rw [List.getLast?_cons_cons] at h
      have := ih h
      calc a :: b :: t2 = a :: (b :: t2) := rfl
        _ = a :: ((b :: t2).dropLast ++ [u]) := by rw [← this]
        _ = (a :: b :: t2).dropLast ++ [u] := by simp

/-- C8 counterexample: the input 5M does not match the claimed pattern
(digits then a lowercase unit), yet parse_timeout accepts it and returns
300 seconds instead of raising. -/
theorem parse_timeout_pattern_counterexample :
    timeoutPatternMatches "5M" = false ∧ parse_timeout "5M" = some 300 := by
  decide

theorem parseTimeoutList_isSome (cs : List Char) :
    (parseTimeoutList cs).isSome = timeoutPatternList cs := by
  unfold parseTimeoutList timeoutPatternList
  cases h : cs.getLast? with
  | none => simp
  | some u =>
    cases hc : (!cs.dropLast.isEmpty && cs.dropLast.all Char.isDigit) with
    | true => simp [hc, unitSeconds_isSome]
    | false => simp [hc]

theorem parseTimeoutList_some (cs : List Char) (n : Nat)
    (hn : parseTimeoutList cs = some n) :
    ∃ ds u k, cs = ds ++ [u] ∧ ds ≠ [] ∧ ds.all Char.isDigit = true ∧
      unitSeconds u = some k ∧ n = digitsToNat ds * k := by
  unfold parseTimeoutList at hn
  cases h : cs.getLast? with
  | none => rw [h] at hn; simp at hn
  | some u =>
    rw [h] at hn
    dsimp only at hn
    cases hc : (!cs.dropLast.isEmpty && cs.dropLast.all Char.isDigit) with
    | false => rw [hc] at hn; simp at hn
    | true =>
      rw [hc] at hn
      cases hk : unitSeconds u with
      | none => rw [hk] at hn; simp at hn
      | some k =>
        rw [hk] at hn
        simp only [if_true, Option.map_some', Option.some.injEq] at hn
        rw [Bool.and_eq_true, Bool.not_eq_true'] at hc
        refine ⟨cs.dropLast, u, k, getLast?_decomp h, ?_, hc.2, hk, hn.symm⟩
        intro he
        rw [he] at hc
        simp at hc

/-- C8 amended: parse_timeout accepts exactly the strings whose lowercasing
matches digits followed by one of s, m, h, d, and on success the result is
the digit value scaled by the unit in seconds; every other input raises. -/
theorem parse_timeout_spec (s : String) :
    ((parse_timeout s).isSome = timeoutPatternMatches (pyLower s)) ∧
    (∀ n, parse_timeout s = some n →
      ∃ ds u k, (pyLower s).toList = ds ++ [u] ∧ ds ≠ [] ∧
        ds.all Char.isDigit = true ∧ unitSeconds u = some k ∧
        n = digitsToNat ds * k) :=
  ⟨parseTimeoutList_isSome (pyLower s).toList,
    fun n hn => parseTimeoutList_some (pyLower s).toList n hn⟩

/-- C8 witness: the input 10m parses to 600 seconds and its decomposition
into digits and unit is as the amended claim states. -/
theorem parse_timeout_spec_witness :
    (parse_timeout "10m").isSome = true ∧
      (∃ ds u k, (pyLower "10m").toList = ds ++ [u] ∧ ds ≠ [] ∧
        ds.all Char.isDigit = true ∧ unitSeconds u = some k ∧
        600 = digitsToNat ds * k) :=
  ⟨(parse_timeout_spec "10m").1.trans (by decide),
    (parse_timeout_spec "10m").2 600 (by decide)⟩

/-! ## Lemmas about suspension matching and resume -/

theorem coversMonitored_iff (responded monitored : List String) :
    coversMonitored responded monitored = true ↔ ∀ x ∈ monitored, x ∈ responded := by
  simp [coversMonitored]

theorem updatedRun_id (ex : SuspendedRun) (u c m : String) :
    (updatedRun ex u c m).id = ex.id := by
  unfold updatedRun
  cases h : ex.users_responded.contains u <;> simp [h]

theorem updatedRun_status (ex : SuspendedRun) (u c m : String) :
    (updatedRun ex u c m).status = ex.status := by
  unfold updatedRun
  cases h : ex.users_responded.contains u <;> simp [h]

theorem updatedRun_users_responded (ex : SuspendedRun) (u c m : String) :
    (updatedRun ex u c m).users_responded = respondedAfter ex u := by
  unfold updatedRun respondedAfter
  cases h : ex.users_responded.contains u <;> simp [h]

theorem process_execution_updated_inv (rs : String → String → Bool)
    (u c m : String) (ex r2 : SuspendedRun)
    (h : process_execution rs u c m ex = EventOutcome.updated r2) :
    r2 = updatedRun ex u c m := by
  unfold process_execution at h
  by_cases hm : check_response_match rs m ex.expected_response ex.match_type
      ex.case_sensitive (expectedRespOpt ex) = true
  · rw [if_pos hm] at h
    by_cases hcond : (if ex.mode = "users" then
        coversMonitored (updatedRun ex u c m).users_responded ex.monitored_users
      else if ex.mode = "channel" then
        coversMonitored (updatedRun ex u c m).users_responded ex.monitored_users
      else false) = true
    · rw [if_pos hcond] at h
      simp at h
    · rw [if_neg hcond] at h
      exact (EventOutcome.updated.inj h).symm
  · rw [if_neg hm] at h
    simp at h

theorem process_execution_resumed_inv (rs : String → String → Bool)
    (u c m : String) (ex r2 : SuspendedRun)
    (h : process_execution rs u c m ex = EventOutcome.resumed r2) :
    r2 = updatedRun ex u c m := by
  unfold process_execution at h
  by_cases hm : check_response_match rs m ex.expected_response ex.match_type
      ex.case_sensitive (expectedRespOpt ex) = true
  · rw [if_pos hm] at h
    by_cases hcond : (if ex.mode = "users" then
        coversMonitored (updatedRun ex u c m).users_responded ex.monitored_users
      else if ex.mode = "channel" then
        coversMonitored (updatedRun ex u c m).users_responded ex.monitored_users
      else false) = true
    · rw [if_pos hcond] at h
      exact (EventOutcome.resumed.inj h).symm
    · rw [if_neg hcond] at h
      simp at h
  · rw [if_neg hm] at h
    simp at h

theorem mem_applyUpdate_self {pending : List SuspendedRun} {r0 : SuspendedRun}
    (hmem : r0 ∈ pending) (e2 : SuspendedRun) (hid : r0.id = e2.id) :
    e2 ∈ applyUpdate pending e2 := by
  unfold applyUpdate
  rw [List.mem_map]
  exact ⟨r0, hmem, by simp [hid]⟩

theorem mem_applyUpdate_other {pending : List SuspendedRun} {r0 : SuspendedRun}
    (hmem : r0 ∈ pending) (e2 : SuspendedRun) (hid : r0.id ≠ e2.id) :
    r0 ∈ applyUpdate pending e2 := by
  unfold applyUpdate
  rw [List.mem_map]
  exact ⟨r0, hmem, by simp [hid]⟩

theorem finalRecord_ok (rerun : SuspendedRun → Except String Unit)
    (run : SuspendedRun) (u : Unit)
    (h : rerun { run with status := "completed" } = Except.ok u) :
    finalRecord rerun run = { run with status := "completed" } := by
  unfold finalRecord
  rw [h]

theorem finalRecord_error (rerun : SuspendedRun → Except String Unit)
    (run : SuspendedRun) (e : String)
    (h : rerun { run with status := "completed" } = Except.error e) :
    finalRecord rerun run = { run with status := "failed", error := some e } := by
  unfold finalRecord
  rw [h]

theorem finalRecord_id (rerun : SuspendedRun → Except String Unit)
    (run : SuspendedRun) : (finalRecord rerun run).id = run.id := by
  cases hre : rerun { run with status := "completed" } with
  | ok u => rw [finalRecord_ok rerun run u hre]
  | error e => rw [finalRecord_error rerun run e hre]

theorem resumeLoop_preserves (rs : String → String → Bool)
    (rerun : SuspendedRun → Except String Unit) (u c m : String) :
    ∀ (l : List SuspendedRun) (st : Stores) (rid : Nat),
      (∃ r ∈ st.pending, r.id = rid ∧ r.status = "awaiting_response") →
      (∀ e ∈ l, e.id = rid →
        (∀ r2, process_execution rs u c m e ≠ EventOutcome.resumed r2) ∧
        (∀ r2, process_execution rs u c m e = EventOutcome.updated r2 →
          r2.status = "awaiting_response")) →
      ∃ r ∈ (resumeLoop rs rerun u c m l st).pending,
        r.id = rid ∧ r.status = "awaiting_response" := by
  intro l
  induction l with
  | nil =>
    intro st rid hh _
    simpa [resumeLoop] using hh
  | cons e rest ih =>
    intro st rid hh hl
    obtain ⟨r0, hr0mem, hr0id, hr0st⟩ := hh
    cases hp : process_execution rs u c m e with
    | skipped =>
      simp only [resumeLoop, hp]
      exact ih st rid ⟨r0, hr0mem, hr0id, hr0st⟩
        (fun e3 he3 => hl e3 (List.mem_cons_of_mem _ he3))
    | updated e2 =>
      simp only [resumeLoop, hp]
      have he2id : e2.id = e.id := by
        rw [process_execution_updated_inv rs u c m e e2 hp]
        exact updatedRun_id e u c m
      apply ih
      · by_cases hid : e.id = rid
        · have hst2 := (hl e (List.mem_cons_self e rest) hid).2 e2 hp
          refine ⟨e2, ?_, by rw [he2id, hid], hst2⟩
          exact mem_applyUpdate_self hr0mem e2 (by rw [hr0id, he2id, hid])
        · refine ⟨r0, ?_, hr0id, hr0st⟩
          exact mem_applyUpdate_other hr0mem e2
            (by rw [hr0id, he2id]; exact fun hbad => hid hbad.symm)
      · exact fun e3 he3 => hl e3 (List.mem_cons_of_mem _ he3)
    | resumed e2 =>
      simp only [resumeLoop, hp]
      by_cases hid : e.id = rid
      · exact absurd hp ((hl e (List.mem_cons_self e rest) hid).1 e2)
      · have he2id : e2.id = e.id := by
          rw [process_execution_resumed_inv rs u c m e e2 hp]
          exact updatedRun_id e u c m
        refine ⟨r0, ?_, hr0id, hr0st⟩
        unfold finalizeResume
        apply List.mem_filter.mpr
        refine ⟨?_, ?_⟩
        · exact mem_applyUpdate_other hr0mem e2
            (by rw [hr0id, he2id]; exact fun hbad => hid hbad.symm)
        · simp only [decide_eq_true_eq]
          rw [hr0id, he2id]
          exact fun hbad => hid hbad.symm

/-! ## Claim theorems about suspension matching and resume -/

/-- C1: for a suspended run in users or channel mode, a matching inbound
event resumes the run exactly when the responded set extended by the event
participant covers the whole monitored-user set; while some monitored user
has not responded, the run stays in the active store with status
awaiting_response. -/
theorem await_resume_iff_all_responded (rs : String → String → Bool)
    (rerun : SuspendedRun → Except String Unit)
    (user_id channel_id message_text : String) (st : Stores) (ex : SuspendedRun)
    (hmode : ex.mode = "users" ∨ ex.mode = "channel")
    (hmatch : check_response_match rs message_text ex.expected_response
      ex.match_type ex.case_sensitive (expectedRespOpt ex) = true) :
    ((∃ r, process_execution rs user_id channel_id message_text ex =
        EventOutcome.resumed r) ↔
      ∀ x ∈ ex.monitored_users, x ∈ respondedAfter ex user_id) ∧
    (ex ∈ st.pending → ex.status = "awaiting_response" →
      (st.pending.map (fun r => r.id)).Nodup →
      (∃ x ∈ ex.monitored_users, x ∉ respondedAfter ex user_id) →
      ∃ r ∈ (check_and_resume_awaits rs rerun user_id channel_id message_text
          st).pending,
        r.id = ex.id ∧ r.status = "awaiting_response") := by
  have hred : process_execution rs user_id channel_id message_text ex =
      (if coversMonitored (respondedAfter ex user_id) ex.monitored_users then
        EventOutcome.resumed (updatedRun ex user_id channel_id message_text)
      else EventOutcome.updated (updatedRun ex user_id channel_id message_text)) := by
    unfold process_execution
    rw [if_pos hmatch]
    simp only [updatedRun_users_responded]
    rcases hmode with h | h <;> rw [h] <;> simp
  have hiff : (∃ r, process_execution rs user_id channel_id message_text ex =
      EventOutcome.resumed r) ↔
      ∀ x ∈ ex.monitored_users, x ∈ respondedAfter ex user_id := by
    rw [hred]
    cases hcov : coversMonitored (respondedAfter ex user_id) ex.monitored_users with
    | true =>
      simp only [hcov, if_true]
      constructor
      · intro _; exact (coversMonitored_iff _ _).mp hcov
      · intro _; exact ⟨_, rfl⟩
    | false =>
      simp only [hcov, Bool.false_eq_true, if_false]
      constructor
      · rintro ⟨r, hr⟩; simp at hr
      · intro hall
        exact absurd ((coversMonitored_iff _ _).mpr hall) (by simp [hcov])
  refine ⟨hiff, ?_⟩
  intro hmem hstat hnodup hnotall
  apply resumeLoop_preserves
  · exact ⟨ex, hmem, rfl, hstat⟩
  · intro e he hid
    have he_mem : e ∈ st.pending := List.mem_of_mem_filter he
    have heq : e = ex := List.inj_on_of_nodup_map hnodup he_mem hmem hid
    subst heq
    constructor
    · intro r2 hr2
      obtain ⟨w, hw, hwna⟩ := hnotall
      exact hwna (hiff.mp ⟨r2, hr2⟩ w hw)
    · intro r2 hr2
      rw [process_execution_updated_inv rs user_id channel_id message_text e r2 hr2,
        updatedRun_status]
      exact hstat

/-- C1 witness: U1 replies yes in channel C1 while U2 is still missing, so
the run is not resumed and stays awaiting_response in the active store. -/
theorem await_resume_iff_all_responded_witness :
    ∃ r ∈ (check_and_resume_awaits noRegexBool rerunOk "U1" "C1" "yes"
        { pending := [sampleRun], completed := [] }).pending,
      r.id = sampleRun.id ∧ r.status = "awaiting_response" :=
  (await_resume_iff_all_responded noRegexBool rerunOk "U1" "C1" "yes"
      { pending := [sampleRun], completed := [] } sampleRun
      (Or.inl rfl) (by decide)).2
    (by simp) rfl (by simp) (by decide)

/-- C2: once the resume condition is met the run is finalized into the
terminal store as one step: the record disappears from the active store and
appears in the terminal store with status completed when the re-execution
succeeds and status failed with the error message when it raises. -/
theorem resume_moves_run_to_terminal_store
    (rerun : SuspendedRun → Except String Unit) (st : Stores)
    (run : SuspendedRun) :
    (∀ r ∈ (finalizeResume rerun st run).pending, r.id ≠ run.id) ∧
    (∃ r ∈ (finalizeResume rerun st run).completed, r.id = run.id ∧
      (∀ u, rerun { run with status := "completed" } = Except.ok u →
        r.status = "completed" ∧ r.error = run.error) ∧
      (∀ e, rerun { run with status := "completed" } = Except.error e →
        r.status = "failed" ∧ r.error = some e)) := by
  constructor
  · intro r hr
    unfold finalizeResume at hr
    have := (List.mem_filter.mp hr).2
    simpa using this
  · refine ⟨finalRecord rerun run, ?_, finalRecord_id rerun run,
      fun u hu => ?_, fun e he => ?_⟩
    · unfold finalizeResume
      simp
    · rw [finalRecord_ok rerun run u hu]
      exact ⟨rfl, rfl⟩
    · rw [finalRecord_error rerun run e he]
      exact ⟨rfl, rfl⟩

/-- C2 witness: a successful resumed pass moves the concrete run into the
terminal store with status completed. -/
theorem resume_moves_run_to_terminal_store_witness :
    ∃ r ∈ (finalizeResume rerunOk { pending := [sampleRun], completed := [] }
        sampleRun).completed,
      r.id = sampleRun.id ∧ r.status = "completed" := by
  obtain ⟨r, hr, hid, hok, _⟩ := (resume_moves_run_to_terminal_store rerunOk
    { pending := [sampleRun], completed := [] } sampleRun).2
  exact ⟨r, hr, hid, (hok () rfl).1⟩

/-! ## Lemmas about the graph traversal -/

theorem getNextNode_mem_targets (env : GraphEnv) (id side v : String)
    (h : getNextNode env id side = some v) :
    v ∈ env.conns.map (fun p => p.2) := by
  unfold getNextNode at h
  cases hf : env.conns.find? (fun p => p.1.1 = id && p.1.2 = side) with
  | none => rw [hf] at h; simp at h
  | some p =>
    rw [hf] at h
    have hv := Option.some.inj h
    rw [← hv]
    exact List.mem_map_of_mem _ (List.mem_of_find?_eq_some hf)

theorem nodeTypeOf_mem_keys (env : GraphEnv) (id : String) (t : String)
    (h : nodeTypeOf env id = some t) :
    id ∈ env.nodes.map (fun p => p.1) := by
  unfold nodeTypeOf at h
  cases hf : env.nodes.find? (fun p => p.1 = id) with
  | none => rw [hf] at h; simp at h
  | some p =>
    have hp : p.1 = id := by simpa using List.find?_some hf
    rw [← hp]
    exact List.mem_map_of_mem _ (List.mem_of_find?_eq_some hf)

theorem execGraphLoop_isSome (env : GraphEnv) (runBlock : String → BlockResult)
    (U : List String) (hU : ∀ p ∈ env.conns, p.2 ∈ U) :
    ∀ (fuel : Nat) (visited trace : List String) (curr : Option String),
      (∀ c, curr = some c → c ∈ U) →
      (U.toFinset \ visited.toFinset).card < fuel →
      (execGraphLoop env runBlock fuel visited trace curr).isSome = true := by
  have hnext : ∀ c side c2, getNextNode env c side = some c2 → c2 ∈ U := by
    intro c side c2 h2
    obtain ⟨p, hp, hpe⟩ := List.mem_map.mp (getNextNode_mem_targets env c side c2 h2)
    rw [← hpe]
    exact hU p hp
  intro fuel
  induction fuel with
  | zero =>
    intro visited trace curr _ hcard
    exact absurd hcard (Nat.not_lt_zero _)
  | succ n ih =>
    intro visited trace curr hcurr hcard
    cases curr with
    | none => simp [execGraphLoop]
    | some c =>
      by_cases hv : visited.contains c = true
      · simp only [execGraphLoop]
        rw [if_pos hv]
        simp
      · have hvb : visited.contains c = false := by simpa using hv
        have hcmem : c ∈ U := hcurr c rfl
        have hcnotv : c ∉ visited := by simpa using hvb
        have hdec : (U.toFinset \ (c :: visited).toFinset).card < n := by
          have h2 : U.toFinset \ insert c visited.toFinset =
              (U.toFinset \ visited.toFinset).erase c := by
            ext x
            simp only [Finset.mem_erase, Finset.mem_sdiff, Finset.mem_insert]
            tauto
          have hcin : c ∈ U.toFinset \ visited.toFinset := by
            rw [Finset.mem_sdiff]
            exact ⟨List.mem_toFinset.mpr hcmem,
              fun hbad => hcnotv (List.mem_toFinset.mp hbad)⟩
          rw [List.toFinset_cons, h2]
          have := Finset.card_erase_lt_of_mem hcin
          omega
        simp only [execGraphLoop]
        rw [if_neg hv]
        cases ht : nodeTypeOf env c with
        | none =>
          dsimp only
          exact ih (c :: visited) trace _ (fun c2 hc2 => hnext c "bottom" c2 hc2) hdec
        | some t =>
          dsimp only
          by_cases hte : t = ""
          · rw [if_pos hte]
            exact ih (c :: visited) trace _ (fun c2 hc2 => hnext c "bottom" c2 hc2) hdec
          · rw [if_neg hte]
            cases hr : runBlock c with
            | halt => dsimp only; simp
            | value side =>
              dsimp only
              exact ih (c :: visited) (c :: trace) _
                (fun c2 hc2 => hnext c _ c2 hc2) hdec

theorem execGraphLoop_trace (env : GraphEnv) (runBlock : String → BlockResult) :
    ∀ (fuel : Nat) (visited trace : List String) (curr : Option String)
      (l : List String),
      execGraphLoop env runBlock fuel visited trace curr = some l →
      ∃ tl, l = trace.reverse ++ tl ∧ tl.Nodup ∧
        ∀ x ∈ tl, x ∉ visited ∧ x ∈ env.nodes.map (fun p => p.1) := by
  intro fuel
  induction fuel with
  | zero =>
    intro visited trace curr l h
    simp [execGraphLoop] at h
  | succ n ih =>
    intro visited trace curr l h
    cases curr with
    | none =>
      simp only [execGraphLoop] at h
      exact ⟨[], by rw [← Option.some.inj h]; simp, List.nodup_nil, by simp⟩
    | some c =>
      by_cases hv : visited.contains c = true
      · simp only [execGraphLoop] at h
        rw [if_pos hv] at h
        exact ⟨[], by rw [← Option.some.inj h]; simp, List.nodup_nil, by simp⟩
      · have hvb : visited.contains c = false := by simpa using hv
        have hcnotv : c ∉ visited := by simpa using hvb
        simp only [execGraphLoop] at h
        rw [if_neg hv] at h
        cases ht : nodeTypeOf env c with
        | none =>
          rw [ht] at h
          dsimp only at h
          obtain ⟨tl, hl, hnd, hprop⟩ := ih _ _ _ _ h
          exact ⟨tl, hl, hnd, fun x hx =>
            ⟨fun hxv => (hprop x hx).1 (List.mem_cons_of_mem _ hxv),
             (hprop x hx).2⟩⟩
        | some t =>
          rw [ht] at h
          dsimp only at h
          by_cases hte : t = ""
          · rw [if_pos hte] at h
            obtain ⟨tl, hl, hnd, hprop⟩ := ih _ _ _ _ h
            exact ⟨tl, hl, hnd, fun x hx =>
              ⟨fun hxv => (hprop x hx).1 (List.mem_cons_of_mem _ hxv),
               (hprop x hx).2⟩⟩
          · rw [if_neg hte] at h
            cases hr : runBlock c with
            | halt =>
              rw [hr] at h
              dsimp only at h
              exact ⟨[], by rw [← Option.some.inj h]; simp, List.nodup_nil, by simp⟩
            | value side =>
              rw [hr] at h
              dsimp only at h
              obtain ⟨tl, hl, hnd, hprop⟩ := ih _ _ _ _ h
              refine ⟨c :: tl, ?_, ?_, ?_⟩
              · rw [hl]
                simp
              · refine List.nodup_cons.mpr ⟨?_, hnd⟩
                intro hc
                exact (hprop c hc).1 (List.mem_cons_self c visited)
              · intro x hx
                rcases List.mem_cons.mp hx with rfl | hx2
                · exact ⟨hcnotv, nodeTypeOf_mem_keys env x t ht⟩
                · exact ⟨fun hxv => (hprop x hx2).1 (List.mem_cons_of_mem _ hxv),
                    (hprop x hx2).2⟩

/-! ## Claim theorems about the orchestrator -/

/-- C3: for every workflow graph (cyclic or not) and every start node, one
orchestrator pass terminates, dispatches each node at most once (the
executed-node trace has no duplicate), and performs at most N block
executions for a graph with N nodes. -/
theorem orchestrator_visits_each_node_at_most_once (env : GraphEnv)
    (runBlock : String → BlockResult) (start : Option String) :
    (execute_graph env runBlock start).isSome = true ∧
    ∀ l, execute_graph env runBlock start = some l →
      l.Nodup ∧ l.length ≤ env.nodes.length ∧
        ∀ x ∈ l, x ∈ env.nodes.map (fun p => p.1) := by
  have hkey : ∀ s : String,
      (execGraphLoop env runBlock ((nodeUniverse env s).length + 1) [] []
        (some s)).isSome = true := by
    intro s
    apply execGraphLoop_isSome env runBlock (nodeUniverse env s)
    · intro p hp
      exact List.mem_cons_of_mem _ (List.mem_map_of_mem _ hp)
    · intro c hc
      rw [← Option.some.inj hc]
      exact List.mem_cons_self _ _
    · have h1 : ((nodeUniverse env s).toFinset \
          ([] : List String).toFinset).card ≤ (nodeUniverse env s).length := by
        simp only [List.toFinset_nil, Finset.sdiff_empty]
        exact List.toFinset_card_le _
      omega
  have hprops : ∀ (s : String) (l : List String),
      execGraphLoop env runBlock ((nodeUniverse env s).length + 1) [] []
        (some s) = some l →
      l.Nodup ∧ l.length ≤ env.nodes.length ∧
        ∀ x ∈ l, x ∈ env.nodes.map (fun p => p.1) := by
    intro s l h
    obtain ⟨tl, hl, hnd, hprop⟩ := execGraphLoop_trace env runBlock _ _ _ _ _ h
    have hleq : l = tl := by simpa using hl
    subst hleq
    have hsub : l ⊆ env.nodes.map (fun p => p.1) := fun x hx => (hprop x hx).2
    refine ⟨hnd, ?_, hsub⟩
    have hle := (List.Nodup.subperm hnd hsub).length_le
    simpa [List.length_map] using hle
  constructor
  · unfold execute_graph
    cases start with
    | some s => exact hkey s
    | none =>
      cases hg : getNextNode env "trigger-node" "bottom" with
      | none => simp
      | some s => exact hkey s
  · intro l hl
    unfold execute_graph at hl
    cases start with
    | some s => exact hprops s l hl
    | none =>
      cases hg : getNextNode env "trigger-node" "bottom" with
      | none =>
        rw [hg] at hl
        rw [← Option.some.inj hl]
        exact ⟨List.nodup_nil, by simp, by simp⟩
      | some s =>
        rw [hg] at hl
        exact hprops s l hl

/-- C3 witness: on the one-node sample graph the pass terminates with the
single execution of n1. -/
theorem orchestrator_visits_each_node_at_most_once_witness :
    (execute_graph sampleGraph sampleRunBlock none).isSome = true ∧
      (execute_graph sampleGraph sampleRunBlock none = some ["n1"] ∧
        ["n1"].Nodup ∧ ["n1"].length ≤ sampleGraph.nodes.length) :=
  ⟨(orchestrator_visits_each_node_at_most_once sampleGraph sampleRunBlock none).1,
    by decide,
    ((orchestrator_visits_each_node_at_most_once sampleGraph sampleRunBlock
        none).2 ["n1"] (by decide)).1,
    ((orchestrator_visits_each_node_at_most_once sampleGraph sampleRunBlock
        none).2 ["n1"] (by decide)).2.1⟩

/-! ## Claim theorems about template validation -/

theorem validateNewFormat_ok_iff (l : List BlockEntry) :
    validateNewFormat l = Except.ok () ↔
      l.all (fun b => match b with
        | BlockEntry.typed t => supportedBlocks.contains t
        | BlockEntry.named _ => false) = true := by
  induction l with
  | nil => simp [validateNewFormat]
  | cons b rest ih =>
    cases b with
    | typed ty =>
      by_cases h : ty ∈ supportedBlocks
      · simp [validateNewFormat, h, ih]
      · simp [validateNewFormat, h]
    | named nm => simp [validateNewFormat]

theorem validateOldFormat_ok_iff (chainKeys : List String) (l : List BlockEntry) :
    validateOldFormat chainKeys l = Except.ok () ↔
      l.all (fun b => match b with
        | BlockEntry.named n =>
          chainKeys.contains n && supportedBlocks.contains n
        | BlockEntry.typed _ => false) = true := by
  induction l with
  | nil => simp [validateOldFormat]
  | cons b rest ih =>
    cases b with
    | named nm =>
      by_cases h1 : nm ∈ chainKeys
      · by_cases h2 : nm ∈ supportedBlocks
        · simp [validateOldFormat, h1, h2, ih]
        · simp [validateOldFormat, h1, h2]
      · simp [validateOldFormat, h1]
    | typed ty => simp [validateOldFormat]

/-- C7 counterexample: the legacy definition with the single block name
report and a matching config key passes every check the claim lists (blocks
non-empty, legacy names configured), yet validate_template raises a
validation error, because the source also rejects legacy names outside the
supported kinds. -/
theorem validate_template_counterexample :
    claimChecksPass [BlockEntry.named "report"] ["blocks", "report"] = true ∧
      validate_template [BlockEntry.named "report"] ["blocks", "report"] =
        Except.error
          (TemplateError.validation "block is not a supported block type") :=
  ⟨by decide, by rfl⟩

/-- C7 amended: validate_template raises before any block executes exactly
on the definitions outside validSpec: empty or missing block list, a
new-format block of unsupported kind, a legacy name without config entry OR
of unsupported kind, or a format-mixed list; every other definition passes. -/
theorem validate_template_ok_iff (blocks : List BlockEntry)
    (chainKeys : List String) :
    validate_template blocks chainKeys = Except.ok () ↔
      validSpec blocks chainKeys = true := by
  cases blocks with
  | nil => simp [validate_template, validSpec]
  | cons b rest =>
    cases b with
    | typed ty =>
      simpa [validate_template, validSpec] using
        validateNewFormat_ok_iff (BlockEntry.typed ty :: rest)
    | named nm =>
      simpa [validate_template, validSpec] using
        validateOldFormat_ok_iff chainKeys (BlockEntry.named nm :: rest)

/-- C7 witness: a well-formed new-format definition passes validation, and
the empty definition is rejected. -/
theorem validate_template_ok_iff_witness :
    validate_template [BlockEntry.typed "trigger", BlockEntry.typed "message"]
        ["blocks"] = Except.ok () ∧
      validate_template [] ["blocks"] ≠ Except.ok () :=
  ⟨(validate_template_ok_iff [BlockEntry.typed "trigger",
      BlockEntry.typed "message"] ["blocks"]).mpr (by decide),
    fun hbad => by
      have := (validate_template_ok_iff [] ["blocks"]).mp hbad
      simp [validSpec] at this⟩

/-! ## Claim theorems about the timeout sweeper -/

/-- C5: evaluation of the timeout sweeper at the failing input: monitored
users U1 and U2 own channels C1 and C2 positionally, only U1 responded, yet
the failure message goes to C1 — the responding user U1s channel — and U2s
channel C2 receives nothing.  The sweeper indexes monitored_channels by the
position in the non-responder enumeration instead of the users own position,
contradicting the claim and the sources own comment. -/
theorem timeout_sweeper_positional_bug :
    timeout_failure_channels timeoutRun = ["C1"] ∧
      channelOfUser timeoutRun "U1" = some "C1" ∧
      channelOfUser timeoutRun "U2" = some "C2" ∧
      "C2" ∉ timeout_failure_channels timeoutRun := by
  decide

/-! ## Lemmas about the scan poller -/

theorem advCursor_some (latest : Option ℚ) (t : ℚ) :
    ∃ y, advCursor latest t = some y ∧ t ≤ y ∧ ∀ x, latest = some x → x ≤ y := by
  cases latest with
  | none => exact ⟨t, rfl, le_refl t, by simp⟩
  | some l =>
    by_cases h : t > l
    · refine ⟨t, by simp [advCursor, h], le_refl t, ?_⟩
      intro x hx
      rw [← Option.some.inj hx]
      exact le_of_lt h
    · refine ⟨l, by simp [advCursor, h], not_lt.mp h, ?_⟩
      intro x hx
      rw [← Option.some.inj hx]

theorem scanMessages_latest_mono (command : String) :
    ∀ (l : List ScanMsg) (latest : Option ℚ) (x : ℚ), latest = some x →
      ∃ y, (scanMessages command l latest).latest_ts = some y ∧ x ≤ y := by
  intro l
  induction l with
  | nil =>
    intro latest x hx
    exact ⟨x, by simp [scanMessages, hx], le_refl x⟩
  | cons msg rest ih =>
    intro latest x hx
    obtain ⟨y, hy, _, hmax⟩ := advCursor_some latest msg.ts
    by_cases hm : pyIn (pyLower command) (pyLower msg.text) = true
    · refine ⟨y, ?_, hmax x hx⟩
      simp [scanMessages, hm, hy]
    · obtain ⟨z, hz, hyz⟩ := ih (advCursor latest msg.ts) y hy
      refine ⟨z, ?_, le_trans (hmax x hx) hyz⟩
      simp [scanMessages, hm, hz]

theorem maxTs_const (rest : List ScanMsg) :
    ∀ y : ℚ, (∀ m ∈ rest, m.ts ≤ y) → maxTs (some y) rest = some y := by
  induction rest with
  | nil => intro y _; rfl
  | cons m t ih =>
    intro y hall
    have h1 : max y m.ts = y := max_eq_left (hall m (List.mem_cons_self m t))
    unfold maxTs
    rw [List.foldl_cons]
    dsimp only
    rw [h1]
    exact ih y (fun m2 hm2 => hall m2 (List.mem_cons_of_mem _ hm2))

theorem maxTs_cons (c : Option ℚ) (msg : ScanMsg) (rest : List ScanMsg) :
    maxTs c (msg :: rest) = maxTs (advCursor c msg.ts) rest := by
  unfold maxTs advCursor
  rw [List.foldl_cons]
  cases c with
  | none => rfl
  | some x =>
    dsimp only
    congr 1
    by_cases h : msg.ts > x
    · rw [if_pos h, max_eq_right (le_of_lt h)]
    · rw [if_neg h, max_eq_left (not_lt.mp h)]

theorem scanMessages_sorted_max (command : String) :
    ∀ (l : List ScanMsg) (c : Option ℚ),
      l.Pairwise (fun a b => b.ts ≤ a.ts) →
      (scanMessages command l c).latest_ts = maxTs c l := by
  intro l
  induction l with
  | nil => intro c _; rfl
  | cons msg rest ih =>
    intro c hp
    have hp2 := List.pairwise_cons.mp hp
    by_cases hm : pyIn (pyLower command) (pyLower msg.text) = true
    · obtain ⟨y, hy, hty, _⟩ := advCursor_some c msg.ts
      have hmax : maxTs c (msg :: rest) = some y := by
        rw [maxTs_cons, hy]
        exact maxTs_const rest y (fun m hm2 => le_trans (hp2.1 m hm2) hty)
      rw [hmax]
      simp [scanMessages, hm, hy]
    · rw [maxTs_cons]
      have hrec := ih (advCursor c msg.ts) hp2.2
      simp [scanMessages, hm, hrec]

theorem scanMessages_found_mem (command : String) :
    ∀ (l : List ScanMsg) (c : Option ℚ) (m : ℚ),
      (scanMessages command l c).found_ts = some m →
      ∃ msg ∈ l, msg.ts = m := by
  intro l
  induction l with
  | nil =>
    intro c m h
    simp [scanMessages] at h
  | cons msg rest ih =>
    intro c m h
    by_cases hm : pyIn (pyLower command) (pyLower msg.text) = true
    · simp only [scanMessages] at h
      rw [if_pos hm] at h
      exact ⟨msg, List.mem_cons_self _ _, Option.some.inj h⟩
    · simp only [scanMessages] at h
      rw [if_neg hm] at h
      obtain ⟨msg2, hmem, hts⟩ := ih _ m h
      exact ⟨msg2, List.mem_cons_of_mem _ hmem, hts⟩

/-! ## Claim theorems about the scan poller -/

/-- C6 counterexample: a fetched list holding an older matching message
before a newer non-matching one: the written-back cursor is the timestamp
of the matching message (1), not the maximum over the fetched messages (5);
the loop returns on the first match and only advances the cursor over the
scanned prefix. -/
theorem scan_cursor_counterexample :
    scan_cursor_after true
        [{ ts := 1, text := "please deploy now" }, { ts := 5, text := "hello" }]
        "deploy" (some 0) = some 1 ∧
      maxTs (some 0)
        [{ ts := 1, text := "please deploy now" }, { ts := 5, text := "hello" }] =
        some 5 := by
  decide

/-- C6 amended: the fetch-error path leaves the cursor unchanged; the written
back cursor is never smaller than the stored one; when the fetched list is
ordered newest first — as the platform returns it — the cursor written back
is the maximum of the stored cursor and all fetched timestamps whether or
not the command matched; and over a fetch of messages strictly newer than
the cursor (the stored cursor is passed as the oldest bound), any trigger
has a timestamp strictly above the stored cursor, so re-polling covered
history never re-triggers. -/
theorem scan_cursor_spec :
    (∀ (messages : List ScanMsg) (command : String) (c : Option ℚ),
      scan_cursor_after false messages command c = c) ∧
    (∀ (messages : List ScanMsg) (command : String) (c : Option ℚ) (x : ℚ),
      c = some x →
      ∃ y, scan_cursor_after true messages command c = some y ∧ x ≤ y) ∧
    (∀ (messages : List ScanMsg) (command : String) (c : Option ℚ),
      messages.Pairwise (fun a b => b.ts ≤ a.ts) →
      scan_cursor_after true messages command c = maxTs c messages) ∧
    (∀ (messages : List ScanMsg) (command : String) (c : Option ℚ) (m : ℚ),
      (∀ msg ∈ messages, ∀ x, c = some x → x < msg.ts) →
      (check_channel_for_command true messages command c).found_ts = some m →
      ∀ x, c = some x → x < m) := by
  refine ⟨fun _ _ _ => rfl, ?_, ?_, ?_⟩
  · intro messages command c x hx
    exact scanMessages_latest_mono command messages c x hx
  · intro messages command c hp
    exact scanMessages_sorted_max command messages c hp
  · intro messages command c m habove hfound x hx
    obtain ⟨msg, hmem, hts⟩ := scanMessages_found_mem command messages c m hfound
    rw [← hts]
    exact habove msg hmem x hx

/-- C6 witness: on a newest-first fetched list with a match in the older
message, the cursor written back is the overall maximum 5. -/
theorem scan_cursor_spec_witness :
    scan_cursor_after true
        [{ ts := 5, text := "hello" }, { ts := 1, text := "please deploy" }]
        "deploy" (some 0) =
      maxTs (some 0)
        [{ ts := 5, text := "hello" }, { ts := 1, text := "please deploy" }] ∧
      maxTs (some 0)
        [{ ts := 5, text := "hello" }, { ts := 1, text := "please deploy" }] =
        some 5 :=
  ⟨scan_cursor_spec.2.2.1
      [{ ts := 5, text := "hello" }, { ts := 1, text := "please deploy" }]
      "deploy" (some 0) (by decide),
    by decide⟩

end DEO
